import Mathlib

/-!
Verification of the fetch/queue/delivery core of `bot.py` (PinterestPicBot).

The Python source is embedded shallowly:
* the per-user mutable dict `user_state[user_id]` becomes the `Session` structure;
* `fetch_images_from_pinterest_api` / `parse_html_images` become pure functions
  parameterised by the outcome of the network round trip (the raw candidate
  URL lists produced by the regex extraction, which is outside the model);
* `search_and_enqueue_more` is split at its single `await` point into the
  synchronous launch prefix (`search_and_enqueue_start`) and the completion
  suffix (`on_fetch_complete`), matching the cooperative asyncio scheduling;
* `handle_search` and `send_block` become state transformers;
* the whole system is a small-step relation `SysStep` with reachability
  `Reachable`, carrying a ghost log `delivered` of the blocks delivered since
  the last query change.

Strings are modelled as Lean `String`; the Python substring / replace /
startswith operations are re-implemented on `List Char` so that every
definition evaluates inside the kernel.
-/

/-- Configuration constant `BLOCK_SIZE = 5` (bot.py line 36). -/
def BLOCK_SIZE : Nat := 5

/-- Configuration constant `MIN_QUEUE_THRESHOLD = 8` (bot.py line 37). -/
def MIN_QUEUE_THRESHOLD : Nat := 8

/-- Configuration constant `MAX_FETCH_ATTEMPTS = 3` (bot.py line 38). -/
def MAX_FETCH_ATTEMPTS : Nat := 3

/-- Replacement of every non-overlapping occurrence of `pat` in a character
list, scanning left to right; `skip` counts characters of a just-matched
occurrence still to be consumed. Models Python `str.replace`. -/
def replChars (pat rep : List Char) (skip : Nat) : List Char → List Char
  | [] => []
  | c :: rest =>
    match skip with
    | n+1 => replChars pat rep n rest
    | 0 =>
      if pat <+: (c :: rest) ∧ pat ≠ [] then rep ++ replChars pat rep (pat.length - 1) rest
      else c :: replChars pat rep 0 rest

/-- Python `s.replace(pat, rep)`. -/
def str_replace (s pat rep : String) : String :=
  ⟨replChars pat.toList rep.toList 0 s.toList⟩

/-- Python `pat in s` (substring containment). -/
def str_contains (pat s : String) : Bool := decide (pat.toList <:+: s.toList)

/-- Python `s.startswith(pat)`. -/
def str_starts (pat s : String) : Bool := decide (pat.toList <+: s.toList)

/-- Shared skeleton of the two dedup loops of the Fetcher (bot.py lines
125-146 and 179-217): each raw element is turned into at most one candidate
URL by `extract`; a candidate is appended to the results and added to the
live `already_seen` set when it passes `keep` and is not already seen.  The
set is threaded through the loop, so in-batch duplicates are dropped too. -/
def seen_loop (extract : α → Option String) (keep : String → Bool) :
    List α → Finset String → List String × Finset String
  | [], seen => ([], seen)
  | a :: rest, seen =>
    match extract a with
    | none => seen_loop extract keep rest seen
    | some u =>
      if keep u ∧ u ∉ seen then
        let r := seen_loop extract keep rest (insert u seen)
        (u :: r.1, r.2)
      else seen_loop extract keep rest seen

/-- JSON pin loop of `fetch_images_from_pinterest_api` (bot.py lines
125-146): `pinUrls` holds, per pin, the image URL extracted from the
`images` dict (`orig` / `originals` / `736x` / `474x` priority), `none` when
the pin yields no URL.  The guard `if img_url and img_url not in
already_seen` keeps non-empty unseen URLs (line 140) and adds them to
`already_seen` (line 142). -/
def json_pin_loop (pinUrls : List (Option String)) (seen : Finset String) :
    List String × Finset String :=
  seen_loop id (fun u => !(decide (u = ""))) pinUrls seen

/-- Preview markers filtered out of raw HTML URLs (bot.py lines 183, 206). -/
def preview_markers : List String := ["60x60", "75x75", "236x", "avatar", "profile"]

/-- URL upgrade of `parse_html_images` (bot.py lines 187-190 and 209-212):
`/474x/` or, failing that, `/736x/` is rewritten to `/originals/`. -/
def to_original (url : String) : String :=
  if str_contains "/474x/" url then str_replace url "/474x/" "/originals/"
  else if str_contains "/736x/" url then str_replace url "/736x/" "/originals/"
  else url

/-- Per-URL processing of `parse_html_images` before the seen-check: raw URLs
carrying a preview marker are skipped (bot.py lines 183-184, 206-207), the
rest are upgraded to originals. -/
def html_extract (u : String) : Option String :=
  if preview_markers.any (fun m => str_contains m u) then none
  else some (to_original u)

/-- Fallback HTML parser `parse_html_images` (bot.py lines 168-220):
`imgRaw` are the URLs matched by the `<img ... src>` regex, `srcsetRaw` the
URLs found inside `srcset` attributes; both lists run through the same
skip / upgrade / dedup processing against the live `already_seen` set, with
the extra guard `url.startswith('http')` (lines 192, 214), and the two
result lists are concatenated in order. -/
def parse_html_images (imgRaw srcsetRaw : List String) (already_seen : Finset String) :
    List String × Finset String :=
  let r1 := seen_loop html_extract (fun u => str_starts "http" u) imgRaw already_seen
  let r2 := seen_loop html_extract (fun u => str_starts "http" u) srcsetRaw r1.2
  (r1.1 ++ r2.1, r2.2)

/-- Outcome of the network round trip and regex extraction inside
`fetch_images_from_pinterest_api`, the part of the Fetcher outside the
model.  `httpFail` covers a non-200 status (line 73), a timeout (line 158)
and any other exception (line 161); `noData` covers the case where no JSON
blob is found in the HTML (line 102); `jsonData` carries the per-pin
extracted URLs plus the raw HTML URL lists used when the JSON loop yields
nothing (line 150); `jsonError` covers `json.JSONDecodeError` (line 154). -/
inductive FetchOutcome where
  | httpFail
  | noData (imgRaw srcsetRaw : List String)
  | jsonData (pinUrls : List (Option String)) (imgRaw srcsetRaw : List String)
  | jsonError (imgRaw srcsetRaw : List String)

/-- Fetcher `fetch_images_from_pinterest_api` (bot.py lines 49-165): returns
the new image URLs, the updated `already_seen` set (the Python code mutates
the caller set in place; the model threads it), and the next-page bookmark.
Every return path of the source returns `None` as the bookmark. -/
def fetch_images_from_pinterest_api (o : FetchOutcome) (already_seen : Finset String) :
    List String × Finset String × Option String :=
  match o with
  | .httpFail => ([], already_seen, none)
  | .noData imgRaw srcsetRaw =>
    let r := parse_html_images imgRaw srcsetRaw already_seen
    (r.1, r.2, none)
  | .jsonData pinUrls imgRaw srcsetRaw =>
    let r := json_pin_loop pinUrls already_seen
    if r.1.isEmpty then
      let r2 := parse_html_images imgRaw srcsetRaw r.2
      (r2.1, r2.2, none)
    else (r.1, r.2, none)
  | .jsonError imgRaw srcsetRaw =>
    let r := parse_html_images imgRaw srcsetRaw already_seen
    (r.1, r.2, none)

/-- Contract of one `seen_loop` pass: results avoid the given seen set, are
duplicate free, and the final seen set is the initial one plus the results. -/
theorem seen_loop_spec (extract : α → Option String) (keep : String → Bool) :
    ∀ (raw : List α) (seen : Finset String),
      (∀ x ∈ (seen_loop extract keep raw seen).1, x ∉ seen) ∧
      (seen_loop extract keep raw seen).1.Nodup ∧
      (seen_loop extract keep raw seen).2 = seen ∪ (seen_loop extract keep raw seen).1.toFinset
  | [], seen => by simp [seen_loop]
  | a :: rest, seen => by
    match h : extract a with
    | none =>
      simpa [seen_loop, h] using seen_loop_spec extract keep rest seen
    | some u =>
      by_cases hk : keep u ∧ u ∉ seen
      · have ih := seen_loop_spec extract keep rest (insert u seen)
        simp only [seen_loop, h, if_pos hk]
        refine ⟨?_, ?_, ?_⟩
        · intro x hx
          rcases List.mem_cons.mp hx with rfl | hx
          · exact hk.2
          · intro hxs
            exact ih.1 x hx (Finset.mem_insert_of_mem hxs)
        · refine List.nodup_cons.mpr ⟨?_, ih.2.1⟩
          intro hu
          exact ih.1 u hu (Finset.mem_insert_self u seen)
        · rw [ih.2.2, List.toFinset_cons, Finset.union_insert, Finset.insert_union]
      · simpa [seen_loop, h, if_neg hk] using seen_loop_spec extract keep rest seen

/-- Contract of the full Fetcher: the returned URLs are disjoint from the
seen set it was given, are pairwise distinct, the updated seen set is the
union of the given one with the results, and the returned bookmark is
`None` on every path. -/
theorem fetch_spec (o : FetchOutcome) (seen : Finset String) :
    (∀ x ∈ (fetch_images_from_pinterest_api o seen).1, x ∉ seen) ∧
    (fetch_images_from_pinterest_api o seen).1.Nodup ∧
    (fetch_images_from_pinterest_api o seen).2.1 =
      seen ∪ (fetch_images_from_pinterest_api o seen).1.toFinset ∧
    (fetch_images_from_pinterest_api o seen).2.2 = none := by
  have hhtml : ∀ (imgRaw srcsetRaw : List String) (s : Finset String),
      (∀ x ∈ (parse_html_images imgRaw srcsetRaw s).1, x ∉ s) ∧
      (parse_html_images imgRaw srcsetRaw s).1.Nodup ∧
      (parse_html_images imgRaw srcsetRaw s).2 =
        s ∪ (parse_html_images imgRaw srcsetRaw s).1.toFinset := by
    intro imgRaw srcsetRaw s
    have h1 := seen_loop_spec html_extract (fun u => str_starts "http" u) imgRaw s
    set r1 := seen_loop html_extract (fun u => str_starts "http" u) imgRaw s with hr1
    have h2 := seen_loop_spec html_extract (fun u => str_starts "http" u) srcsetRaw r1.2
    set r2 := seen_loop html_extract (fun u => str_starts "http" u) srcsetRaw r1.2 with hr2
    refine ⟨?_, ?_, ?_⟩
    · intro x hx
      simp only [parse_html_images, ← hr1, ← hr2, List.mem_append] at hx
      rcases hx with hx | hx
      · exact h1.1 x hx
      · intro hxs
        exact h2.1 x hx (by rw [h1.2.2]; exact Finset.mem_union_left _ hxs)
    · refine List.nodup_append.mpr ⟨h1.2.1, h2.2.1, ?_⟩
      intro x hx1 hx2
      exact h2.1 x hx2 (by rw [h1.2.2]; exact Finset.mem_union_right _ (List.mem_toFinset.mpr hx1))
    · show r2.2 = s ∪ (r1.1 ++ r2.1).toFinset
      rw [h2.2.2, h1.2.2, List.toFinset_append, Finset.union_assoc]
  match o with
  | .httpFail => simp [fetch_images_from_pinterest_api]
  | .noData imgRaw srcsetRaw =>
    simpa [fetch_images_from_pinterest_api] using hhtml imgRaw srcsetRaw seen
  | .jsonError imgRaw srcsetRaw =>
    simpa [fetch_images_from_pinterest_api] using hhtml imgRaw srcsetRaw seen
  | .jsonData pinUrls imgRaw srcsetRaw =>
    have hj := seen_loop_spec id (fun u => !(decide (u = ""))) pinUrls seen
    by_cases he : (json_pin_loop pinUrls seen).1.isEmpty
    · have hempty : (json_pin_loop pinUrls seen).1 = [] := List.isEmpty_iff.mp he
      have hseen : (json_pin_loop pinUrls seen).2 = seen := by
        have := hj.2.2
        simp only [json_pin_loop] at hempty ⊢
        rw [this, hempty]
        simp
      simp only [fetch_images_from_pinterest_api, if_pos he, hseen]
      exact ⟨(hhtml imgRaw srcsetRaw seen).1, (hhtml imgRaw srcsetRaw seen).2.1,
        (hhtml imgRaw srcsetRaw seen).2.2, trivial⟩
    · simp only [fetch_images_from_pinterest_api, if_neg he]
      exact ⟨hj.1, hj.2.1, hj.2.2, trivial⟩

/-- Per-user state dict `user_state[user_id]` (bot.py lines 359-368).
`shown` is the Python set `state["shown"]`, `next_bookmark` the pagination
cursor, `is_fetching` the in-flight marker, `fetch_attempts` the
consecutive zero-yield streak and `fetch_exhausted` the exhaustion flag. -/
structure Session where
  query : String
  queue : List String
  shown : Finset String
  history : List String
  is_fetching : Bool
  fetch_attempts : Nat
  fetch_exhausted : Bool
  next_bookmark : Option String
deriving DecidableEq

/-- Merge loop of `search_and_enqueue_more` (bot.py lines 254-261): each
fetched URL not in `queued_set` is appended to the queue and to the set,
counting the appends. -/
def merge_loop (queue : List String) (queued_set : Finset String) :
    List String → Nat → List String × Nat
  | [], appended => (queue, appended)
  | img :: rest, appended =>
    if img ∈ queued_set then merge_loop queue queued_set rest appended
    else merge_loop (queue ++ [img]) (insert img queued_set) rest (appended + 1)

/-- Entry point of the merge (bot.py line 254: `queued_set =
set(state["queue"])`, then the loop). Returns the new queue and the number
of newly appended items. -/
def search_merge (queue new_imgs : List String) : List String × Nat :=
  merge_loop queue queue.toFinset new_imgs 0

/-- Completion suffix of `search_and_enqueue_more` (bot.py lines 252-274),
run after the awaited fetch returns: stores the bookmark, merges the new
images into the queue, resets the failure streak on progress and increments
it otherwise, and clears the in-flight marker.  The source never consults
which query the fetch was launched for. -/
def on_fetch_complete (s : Session) (new_imgs : List String) (bm : Option String) : Session :=
  let m := search_merge s.queue new_imgs
  { s with next_bookmark := bm,
           queue := m.1,
           fetch_attempts := if m.2 = 0 then s.fetch_attempts + 1 else 0,
           is_fetching := false }

/-- Synchronous prefix of `search_and_enqueue_more` (bot.py lines 227-249),
up to the awaited fetch call: a no-op when a fetch is already in flight
(line 231); sets `fetch_exhausted` and stops when the failure streak has
reached `MAX_FETCH_ATTEMPTS` (lines 234-236); otherwise marks the session
as fetching and launches.  The boolean reports whether a fetch was
launched. -/
def search_and_enqueue_start (s : Session) : Session × Bool :=
  if s.is_fetching then (s, false)
  else if MAX_FETCH_ATTEMPTS ≤ s.fetch_attempts then
    ({ s with fetch_exhausted := true }, false)
  else ({ s with is_fetching := true }, true)

/-- Whole in-model fetch round for one session: the fetch filters against
the live `state["shown"]` set (passed by reference in the source, so its
additions land in the session), then the completion suffix runs. -/
def complete_fetch (s : Session) (o : FetchOutcome) : Session :=
  let r := fetch_images_from_pinterest_api o s.shown
  on_fetch_complete { s with shown := r.2.1 } r.1 r.2.2

/-- State update of `handle_search` (bot.py lines 359-378): create the
session on first contact (`setdefault`), reset all query-scoped fields when
the query text changed (lines 370-376; `is_fetching` is left alone), and
append the query to the history (line 378). -/
def handle_search_state (st0 : Option Session) (query : String) : Session :=
  let st := match st0 with
    | some s => s
    | none =>
      { query := query, queue := [], shown := ∅, history := [], is_fetching := false,
        fetch_attempts := 0, fetch_exhausted := false, next_bookmark := none }
  let st := if st.query ≠ query then
      { st with query := query, queue := [], shown := ∅, fetch_attempts := 0,
                fetch_exhausted := false, next_bookmark := none }
    else st
  { st with history := st.history ++ [query] }

/-- Pop loop of `send_block` (bot.py lines 316-318): while the queue is
non-empty and fewer than `BLOCK_SIZE` items are collected, pop the front of
the queue into `to_send`. Returns the block and the remaining queue. -/
def pop_block (queue to_send : List String) : List String × List String :=
  match queue with
  | [] => (to_send, [])
  | x :: rest =>
    if to_send.length < BLOCK_SIZE then pop_block rest (to_send ++ [x])
    else (to_send, x :: rest)

/-- Record of what `send_block` attempted for one item of a block: either
the photo was sent, or sending it raised and the textual fallback message
`f"🖼 {img}"` was attempted instead (bot.py lines 321-332). -/
inductive Delivery where
  | photo (img : String)
  | fallbackText (img : String)
deriving DecidableEq

/-- Item a delivery attempt was about. -/
def delivery_img : Delivery → String
  | .photo i => i
  | .fallbackText i => i

/-- Send loop of `send_block` (bot.py lines 320-332), with `ok img`
deciding whether `bot.send_photo` succeeds for `img`: on success the item
is added to `shown` and counted; on failure the textual fallback is
attempted and the loop simply continues with the next item.  Returns the
final `shown` set, the success count and the list of attempts in order. -/
def send_loop (ok : String → Bool) : List String → Finset String → Nat →
    Finset String × Nat × List Delivery
  | [], shown, cnt => (shown, cnt, [])
  | img :: rest, shown, cnt =>
    if ok img then
      let r := send_loop ok rest (insert img shown) (cnt + 1)
      (r.1, r.2.1, .photo img :: r.2.2)
    else
      let r := send_loop ok rest shown cnt
      (r.1, r.2.1, .fallbackText img :: r.2.2)

/-- Consumer-visible result of one `send_block` run. -/
inductive BlockOutcome where
  | empty (everShown : Bool)
  | delivered (items : List String) (succeeded : Nat) (offerMore : Bool)
deriving DecidableEq

/-- Items of a `delivered` outcome. -/
def delivered_items : BlockOutcome → Option (List String)
  | .delivered items _ _ => some items
  | _ => none

/-- Refill trigger condition at the `send_block` and `more_callback` call
sites (bot.py lines 286, 405): a background `search_and_enqueue_more` task
is created only when the queue is below `MIN_QUEUE_THRESHOLD` and no fetch
is in flight and the session is not exhausted. -/
def refill_trigger (s : Session) : Bool :=
  decide (s.queue.length < MIN_QUEUE_THRESHOLD) && !s.is_fetching && !s.fetch_exhausted

/-- Core of `send_block` (bot.py lines 278-342), after the refill trigger
(modelled as a separate scheduler step) and the bounded wait (which mutates
nothing): with an empty queue the user gets the `nothing found` message
when `shown` is empty and the `no more new items` message otherwise; with a
non-empty queue a block is popped FIFO and sent, and the `show more`
keyboard is offered only when at least one photo went out and the session
is not exhausted (line 334). -/
def send_block_run (s : Session) (ok : String → Bool) : Session × BlockOutcome :=
  if s.queue.isEmpty then (s, .empty (!(decide (s.shown = ∅))))
  else
    let p := pop_block s.queue []
    let r := send_loop ok p.1 s.shown 0
    ({ s with queue := p.2, shown := r.1 },
     .delivered p.1 r.2.1 (decide (0 < r.2.1) && !s.fetch_exhausted))

/-- Characterisation of the merge loop started from `queued_set =
set(queue)`: the queue is extended by a duplicate-free selection `kept` of
the fetched images, in order, containing no key already in the queue, and
`appended` counts exactly the kept items. -/
theorem merge_loop_spec :
    ∀ (new_imgs queue : List String) (n : Nat),
      ∃ kept, merge_loop queue queue.toFinset new_imgs n = (queue ++ kept, n + kept.length) ∧
        kept.Sublist new_imgs ∧ kept.Nodup ∧ ∀ x ∈ kept, x ∉ queue
  | [], queue, n => ⟨[], by simp [merge_loop], List.nil_sublist _, List.nodup_nil, by simp⟩
  | img :: rest, queue, n => by
    by_cases h : img ∈ queue
    · obtain ⟨kept, heq, hsub, hnd, hnotin⟩ := merge_loop_spec rest queue n
      refine ⟨kept, ?_, hsub.cons img, hnd, hnotin⟩
      rw [merge_loop, if_pos (List.mem_toFinset.mpr h)]
      exact heq
    · obtain ⟨kept, heq, hsub, hnd, hnotin⟩ := merge_loop_spec rest (queue ++ [img]) (n + 1)
      have hset : insert img queue.toFinset = (queue ++ [img]).toFinset := by
        rw [List.toFinset_append, Finset.insert_eq, Finset.union_comm]
        simp
      refine ⟨img :: kept, ?_, hsub.cons₂ img, ?_, ?_⟩
      · rw [merge_loop, if_neg (fun hc => h (List.mem_toFinset.mp hc)), hset, heq]
        simp [Nat.add_comm, Nat.add_assoc, Nat.add_left_comm]
      · refine List.nodup_cons.mpr ⟨?_, hnd⟩
        intro hmem
        exact hnotin img hmem (by simp)
      · intro x hx
        rcases List.mem_cons.mp hx with rfl | hx
        · exact h
        · intro hq
          exact hnotin x hx (by simp [hq])

/-- Merge loop on a duplicate-free fetched list: exactly the images not
already in the queue are appended, in arrival order. -/
theorem merge_loop_filter :
    ∀ (new_imgs queue : List String) (n : Nat), new_imgs.Nodup →
      merge_loop queue queue.toFinset new_imgs n =
        (queue ++ new_imgs.filter (fun i => decide (i ∉ queue)),
         n + (new_imgs.filter (fun i => decide (i ∉ queue))).length)
  | [], queue, n, _ => by simp [merge_loop]
  | img :: rest, queue, n, hnd => by
    have hrest : rest.Nodup := (List.nodup_cons.mp hnd).2
    have hni : img ∉ rest := (List.nodup_cons.mp hnd).1
    by_cases h : img ∈ queue
    · rw [merge_loop, if_pos (List.mem_toFinset.mpr h)]
      rw [merge_loop_filter rest queue n hrest]
      simp [List.filter_cons, h]
    · have hset : insert img queue.toFinset = (queue ++ [img]).toFinset := by
        rw [List.toFinset_append, Finset.insert_eq, Finset.union_comm]
        simp
      rw [merge_loop, if_neg (fun hc => h (List.mem_toFinset.mp hc)), hset,
        merge_loop_filter rest (queue ++ [img]) (n + 1) hrest]
      have hfeq : rest.filter (fun i => decide (i ∉ queue ++ [img])) =
          rest.filter (fun i => decide (i ∉ queue)) := by
        apply List.filter_congr
        intro x hx
        have hne : x ≠ img := fun hxe => hni (hxe ▸ hx)
        simp [List.mem_append, hne]
      rw [hfeq]
      simp only [List.filter_cons, decide_eq_true_eq]
      rw [if_pos h, Prod.mk.injEq]
      refine ⟨by simp, ?_⟩
      simp only [List.length_cons]
      omega

/-- Pop loop invariant: starting from accumulator `acc`, the loop moves the
first `BLOCK_SIZE - acc.length` queue items onto the accumulator. -/
theorem pop_block_spec :
    ∀ (queue acc : List String),
      pop_block queue acc =
        (acc ++ queue.take (BLOCK_SIZE - acc.length), queue.drop (BLOCK_SIZE - acc.length))
  | [], acc => by simp [pop_block]
  | x :: rest, acc => by
    by_cases h : acc.length < BLOCK_SIZE
    · rw [pop_block, if_pos h, pop_block_spec rest (acc ++ [x])]
      have hk : BLOCK_SIZE - acc.length = (BLOCK_SIZE - (acc ++ [x]).length) + 1 := by
        simp only [List.length_append, List.length_cons, List.length_nil]
        omega
      rw [hk]
      simp [List.take_succ_cons, List.drop_succ_cons]
    · rw [pop_block, if_neg h]
      have hk : BLOCK_SIZE - acc.length = 0 := by omega
      simp [hk]

/-- Pop loop from the empty accumulator: the block is the first
`BLOCK_SIZE` queue items and the rest of the queue survives. -/
theorem pop_block_take_drop (queue : List String) :
    pop_block queue [] = (queue.take BLOCK_SIZE, queue.drop BLOCK_SIZE) := by
  rw [pop_block_spec]
  simp

/-- Send loop facts: exactly the given items are attempted, in order; a
failing item gets the textual fallback attempt; the shown set only grows
and gains at most the sent items. -/
theorem send_loop_spec (ok : String → Bool) :
    ∀ (imgs : List String) (shown : Finset String) (cnt : Nat),
      ((send_loop ok imgs shown cnt).2.2.map delivery_img = imgs) ∧
      (∀ img ∈ imgs, ok img = false →
        Delivery.fallbackText img ∈ (send_loop ok imgs shown cnt).2.2) ∧
      (∀ x ∈ shown, x ∈ (send_loop ok imgs shown cnt).1) ∧
      (∀ x ∈ (send_loop ok imgs shown cnt).1, x ∈ shown ∨ x ∈ imgs)
  | [], shown, cnt => by simp [send_loop]
  | img :: rest, shown, cnt => by
    by_cases h : ok img
    · have ih := send_loop_spec ok rest (insert img shown) (cnt + 1)
      simp only [send_loop, if_pos h]
      refine ⟨by simpa [delivery_img] using ih.1, ?_, ?_, ?_⟩
      · intro i hi hfail
        rcases List.mem_cons.mp hi with rfl | hi
        · rw [h] at hfail
          exact absurd hfail (by simp)
        · exact List.mem_cons_of_mem _ (ih.2.1 i hi hfail)
      · intro x hx
        exact ih.2.2.1 x (Finset.mem_insert_of_mem hx)
      · intro x hx
        rcases ih.2.2.2 x hx with hx2 | hx2
        · rcases Finset.mem_insert.mp hx2 with rfl | hx3
          · exact Or.inr (by simp)
          · exact Or.inl hx3
        · exact Or.inr (List.mem_cons_of_mem _ hx2)
    · have ih := send_loop_spec ok rest shown cnt
      simp only [send_loop, if_neg h]
      refine ⟨by simpa [delivery_img] using ih.1, ?_, ?_, ?_⟩
      · intro i hi hfail
        rcases List.mem_cons.mp hi with rfl | hi
        · exact List.mem_cons_self _ _
        · exact List.mem_cons_of_mem _ (ih.2.1 i hi hfail)
      · exact fun x hx => ih.2.2.1 x hx
      · intro x hx
        rcases ih.2.2.2 x hx with hx2 | hx2
        · exact Or.inl hx2
        · exact Or.inr (List.mem_cons_of_mem _ hx2)

/-- Whole-system state: the session of one consumer plus a ghost log of the
blocks delivered since the last query change (the scope of the dedup
claims; the source keeps no such log). -/
structure SysState where
  session : Session
  delivered : List (List String)

/-- Small-step relation of the asyncio scheduling: each constructor is one
atomic (await-free) code section of bot.py acting on one session.
`searchMsg` is the state part of `handle_search` (the ghost block log
resets when the query changes); `refill` is the synchronous prefix of
`search_and_enqueue_more` (either called directly or as a created task);
`complete` is the post-await suffix running with the fetch result, possible
only while a fetch is in flight; `block` is one `send_block` run. -/
inductive SysStep : SysState → SysState → Prop
  | searchMsg (q : String) (st : SysState) :
      SysStep st { session := handle_search_state (some st.session) q,
                   delivered := if st.session.query = q then st.delivered else [] }
  | refill (st : SysState) :
      SysStep st { st with session := (search_and_enqueue_start st.session).1 }
  | complete (o : FetchOutcome) (st : SysState)
      (h : st.session.is_fetching = true) :
      SysStep st { st with session := complete_fetch st.session o }
  | block (ok : String → Bool) (st : SysState) :
      SysStep st { session := (send_block_run st.session ok).1,
                   delivered := match (send_block_run st.session ok).2 with
                     | .delivered items _ _ => st.delivered ++ [items]
                     | _ => st.delivered }

/-- Reachable system states: a session is created by the first
`handle_search` message of its consumer, then evolves by `SysStep`. -/
inductive Reachable : SysState → Prop
  | init (q : String) : Reachable { session := handle_search_state none q, delivered := [] }
  | step {st st2 : SysState} : Reachable st → SysStep st st2 → Reachable st2

/-- System invariant: no key repeats across the delivered blocks and the
pending queue; every such key is in `shown`; exhaustion implies a spent
retry budget and no fetch in flight; the pagination bookmark is absent. -/
def SysInv (st : SysState) : Prop :=
  (st.delivered.flatten ++ st.session.queue).Nodup ∧
  (∀ x ∈ st.delivered.flatten ++ st.session.queue, x ∈ st.session.shown) ∧
  (st.session.fetch_exhausted = true → MAX_FETCH_ATTEMPTS ≤ st.session.fetch_attempts) ∧
  (st.session.fetch_exhausted = true → st.session.is_fetching = false) ∧
  st.session.next_bookmark = none

/-- Behaviour of `handle_search` when the query text is unchanged: only the
history grows. -/
theorem handle_search_same (s : Session) (q : String) (h : s.query = q) :
    handle_search_state (some s) q = { s with history := s.history ++ [q] } := by
  simp [handle_search_state, h]

/-- Behaviour of `handle_search` on a changed query text: every query-scoped
field is reset (`is_fetching` is left alone by the source) and the history
grows. -/
theorem handle_search_diff (s : Session) (q : String) (h : s.query ≠ q) :
    handle_search_state (some s) q =
      { query := q, queue := [], shown := ∅, history := s.history ++ [q],
        is_fetching := s.is_fetching, fetch_attempts := 0, fetch_exhausted := false,
        next_bookmark := none } := by
  simp [handle_search_state, h]

/-- Session created on first contact. -/
theorem handle_search_none (q : String) :
    handle_search_state none q =
      { query := q, queue := [], shown := ∅, history := [q], is_fetching := false,
        fetch_attempts := 0, fetch_exhausted := false, next_bookmark := none } := by
  simp [handle_search_state]

/-- Full effect of one in-model fetch round on a session, in terms of the
exact list `kept` of newly enqueued keys. -/
theorem complete_fetch_spec (s : Session) (o : FetchOutcome) :
    ∃ kept : List String,
      (complete_fetch s o).queue = s.queue ++ kept ∧
      kept.Nodup ∧ (∀ x ∈ kept, x ∉ s.queue) ∧ (∀ x ∈ kept, x ∉ s.shown) ∧
      (∀ x ∈ kept, x ∈ (complete_fetch s o).shown) ∧
      (∀ x ∈ s.shown, x ∈ (complete_fetch s o).shown) ∧
      (complete_fetch s o).is_fetching = false ∧
      (complete_fetch s o).fetch_exhausted = s.fetch_exhausted ∧
      (complete_fetch s o).next_bookmark = none ∧
      (complete_fetch s o).history = s.history ∧
      (complete_fetch s o).query = s.query := by
  obtain ⟨kept, heq, hsub, hnd, hnotin⟩ :=
    merge_loop_spec (fetch_images_from_pinterest_api o s.shown).1 s.queue 0
  have hf := fetch_spec o s.shown
  have hkeptmem : ∀ x ∈ kept, x ∈ (fetch_images_from_pinterest_api o s.shown).1 :=
    fun x hx => hsub.subset hx
  have hshown : (complete_fetch s o).shown =
      s.shown ∪ (fetch_images_from_pinterest_api o s.shown).1.toFinset := hf.2.2.1
  refine ⟨kept, ?_, hnd, hnotin, ?_, ?_, ?_, rfl, rfl, hf.2.2.2, rfl, rfl⟩
  · show (search_merge s.queue (fetch_images_from_pinterest_api o s.shown).1).1 = s.queue ++ kept
    rw [search_merge, heq]
  · exact fun x hx => hf.1 x (hkeptmem x hx)
  · intro x hx
    rw [hshown]
    exact Finset.mem_union_right _ (List.mem_toFinset.mpr (hkeptmem x hx))
  · intro x hx
    rw [hshown]
    exact Finset.mem_union_left _ hx

/-- Fields of the session which one `send_block` run never touches. -/
theorem send_block_run_fields (s : Session) (ok : String → Bool) :
    (send_block_run s ok).1.fetch_attempts = s.fetch_attempts ∧
    (send_block_run s ok).1.fetch_exhausted = s.fetch_exhausted ∧
    (send_block_run s ok).1.is_fetching = s.is_fetching ∧
    (send_block_run s ok).1.next_bookmark = s.next_bookmark ∧
    (send_block_run s ok).1.history = s.history ∧
    (send_block_run s ok).1.query = s.query := by
  by_cases h : s.queue.isEmpty <;> simp [send_block_run, h]

/-- Preservation of the system invariant along every step. -/
theorem step_inv {st st2 : SysState} (hstep : SysStep st st2) (hinv : SysInv st) :
    SysInv st2 := by
  obtain ⟨h1, h2, h3, h4, h5⟩ := hinv
  cases hstep with
  | searchMsg q st =>
    by_cases hq : st.session.query = q
    · rw [handle_search_same _ _ hq]
      simp only [SysInv, if_pos hq]
      exact ⟨h1, h2, h3, h4, h5⟩
    · rw [handle_search_diff _ _ hq]
      simp only [SysInv, if_neg hq]
      refine ⟨by simp, by simp, by simp, by simp, by trivial⟩
  | refill st =>
    by_cases hif : st.session.is_fetching
    · simp only [SysInv, search_and_enqueue_start, if_pos hif]
      exact ⟨h1, h2, h3, h4, h5⟩
    · by_cases hmax : MAX_FETCH_ATTEMPTS ≤ st.session.fetch_attempts
      · simp only [SysInv, search_and_enqueue_start, if_neg hif, if_pos hmax]
        exact ⟨h1, h2, fun _ => hmax, fun _ => by simpa using hif, h5⟩
      · simp only [SysInv, search_and_enqueue_start, if_neg hif, if_neg hmax]
        refine ⟨h1, h2, ?_, ?_, h5⟩
        · intro hex
          exact absurd (h3 hex) hmax
        · intro hex
          exact absurd (h3 hex) hmax
  | complete o st hif =>
    obtain ⟨kept, hq, hknd, hkq, hks, hkin, hmono, hf, hex, hbm, _, _⟩ :=
      complete_fetch_spec st.session o
    have hexfalse : st.session.fetch_exhausted = false := by
      by_contra hc
      rw [h4 (Bool.not_eq_false _ ▸ hc)] at hif
      exact Bool.false_ne_true hif
    refine ⟨?_, ?_, ?_, ?_, hbm⟩
    · rw [hq, ← List.append_assoc]
      refine List.nodup_append.mpr ⟨h1, hknd, ?_⟩
      intro x hx hxk
      exact hks x hxk (h2 x hx)
    · intro x hx
      rw [hq, ← List.append_assoc, List.mem_append] at hx
      rcases hx with hx | hx
      · exact hmono x (h2 x hx)
      · exact hkin x hx
    · rw [hex, hexfalse]
      intro hc
      exact absurd hc (by simp)
    · intro _
      exact hf
  | block ok st =>
    by_cases hqe : st.session.queue.isEmpty
    · have hrun : send_block_run st.session ok =
          (st.session, .empty (!(decide (st.session.shown = ∅)))) := by
        simp [send_block_run, hqe]
      simp only [SysInv, hrun]
      exact ⟨h1, h2, h3, h4, h5⟩
    · have hrun : send_block_run st.session ok =
          ({ st.session with
              queue := st.session.queue.drop BLOCK_SIZE,
              shown := (send_loop ok (st.session.queue.take BLOCK_SIZE) st.session.shown 0).1 },
           .delivered (st.session.queue.take BLOCK_SIZE)
             (send_loop ok (st.session.queue.take BLOCK_SIZE) st.session.shown 0).2.1
             (decide (0 < (send_loop ok (st.session.queue.take BLOCK_SIZE) st.session.shown 0).2.1)
               && !st.session.fetch_exhausted)) := by
        simp [send_block_run, hqe, pop_block_take_drop]
      have hsl := send_loop_spec ok (st.session.queue.take BLOCK_SIZE) st.session.shown 0
      have hlist : ((st.delivered ++ [st.session.queue.take BLOCK_SIZE]).flatten ++
          st.session.queue.drop BLOCK_SIZE) = st.delivered.flatten ++ st.session.queue := by
        rw [List.flatten_append]
        simp [List.append_assoc, List.take_append_drop]
      simp only [SysInv, hrun]
      refine ⟨?_, ?_, h3, h4, h5⟩
      · rw [hlist]
        exact h1
      · intro x hx
        rw [hlist] at hx
        exact hsl.2.2.1 x (h2 x hx)

/-- Every reachable system state satisfies the invariant. -/
theorem reachable_inv {st : SysState} (h : Reachable st) : SysInv st := by
  induction h with
  | init q =>
    rw [handle_search_none]
    refine ⟨by simp, by simp, by simp, by simp, rfl⟩
  | step _ hstep ih => exact step_inv hstep ih

/-- One refill round whose fetch yields nothing: launch prefix followed by
a completion with zero images (for example an HTTP failure). -/
def zero_yield_round (s : Session) : Session :=
  complete_fetch (search_and_enqueue_start s).1 .httpFail

/-- C1, claim as stated is false on the code: starting a fresh session for
query `cats` and running three consecutive zero-yield fetch rounds, the
third completion raises the streak to 3 (and the round before it really did
launch a fetch with streak 2), yet `fetch_exhausted` is still false after
that third completion — the completion itself never sets the flag. -/
theorem c1_third_completion_not_exhausted :
    (zero_yield_round (zero_yield_round (handle_search_state none "cats"))).fetch_attempts
        = 2 ∧
    (search_and_enqueue_start
        (zero_yield_round (zero_yield_round (handle_search_state none "cats")))).2 = true ∧
    (zero_yield_round (zero_yield_round (zero_yield_round
        (handle_search_state none "cats")))).fetch_attempts = 3 ∧
    (zero_yield_round (zero_yield_round (zero_yield_round
        (handle_search_state none "cats")))).fetch_exhausted = false := by
  decide

/-- C1 (amended): a fetch completion never modifies `exhausted`; instead the
flag becomes true lazily, at the start of the next refill attempt once the
streak has reached `MAX_FETCH_ATTEMPTS`, and that refill launches no fetch;
the flag, once true, survives every step except a query-changing
`setQuery`; and a `nextBlock` on an empty queue reports the empty outcome
(with `everShown` telling whether `shown` is non-empty) without touching
the session. -/
theorem c1_exhaustion_lazy :
    (∀ (s : Session) (new_imgs : List String) (bm : Option String),
      (on_fetch_complete s new_imgs bm).fetch_exhausted = s.fetch_exhausted) ∧
    (∀ s : Session, s.is_fetching = false → MAX_FETCH_ATTEMPTS ≤ s.fetch_attempts →
      search_and_enqueue_start s = ({ s with fetch_exhausted := true }, false)) ∧
    (∀ st st2 : SysState, SysStep st st2 → st.session.fetch_exhausted = true →
      st2.session.fetch_exhausted = true ∨ st2.session.query ≠ st.session.query) ∧
    (∀ (s : Session) (ok : String → Bool), s.queue = [] →
      send_block_run s ok = (s, .empty (!(decide (s.shown = ∅))))) := by
  refine ⟨fun s new_imgs bm => rfl, ?_, ?_, ?_⟩
  · intro s hif hmax
    simp [search_and_enqueue_start, hif, hmax]
  · intro st st2 hstep hex
    cases hstep with
    | searchMsg q st =>
      by_cases hq : st.session.query = q
      · rw [handle_search_same _ _ hq]
        exact Or.inl hex
      · rw [handle_search_diff _ _ hq]
        exact Or.inr (fun hc => hq hc.symm)
    | refill st =>
      by_cases hif : st.session.is_fetching
      · simp only [search_and_enqueue_start, if_pos hif]
        exact Or.inl hex
      · by_cases hmax : MAX_FETCH_ATTEMPTS ≤ st.session.fetch_attempts
        · simp only [search_and_enqueue_start, if_neg hif, if_pos hmax]
          exact Or.inl trivial
        · simp only [search_and_enqueue_start, if_neg hif, if_neg hmax]
          exact Or.inl hex
    | complete o st hif =>
      obtain ⟨_, _, _, _, _, _, _, _, hexeq, _, _, _⟩ := complete_fetch_spec st.session o
      exact Or.inl (hexeq.trans hex)
    | block ok st =>
      exact Or.inl (((send_block_run_fields st.session ok).2.1).trans hex)
  · intro s ok hq
    simp [send_block_run, hq]

/-- C1 witness: the lazy exhaustion applied to the concrete session left by
the three zero-yield rounds, the preservation applied to one concrete step
on an exhausted session, and the empty outcome on a concrete session. -/
theorem c1_exhaustion_lazy_witness :
    search_and_enqueue_start (zero_yield_round (zero_yield_round (zero_yield_round
        (handle_search_state none "cats")))) =
      ({ zero_yield_round (zero_yield_round (zero_yield_round
          (handle_search_state none "cats"))) with fetch_exhausted := true }, false) ∧
    ((search_and_enqueue_start (Session.mk "a" [] ∅ ["a"] false 3 true none)).1.fetch_exhausted
        = true ∨
      (search_and_enqueue_start (Session.mk "a" [] ∅ ["a"] false 3 true none)).1.query
        ≠ "a") ∧
    send_block_run (Session.mk "a" [] ∅ ["a"] false 3 true none) (fun _ => true) =
      (Session.mk "a" [] ∅ ["a"] false 3 true none, .empty false) :=
  ⟨c1_exhaustion_lazy.2.1 _ (by decide) (by decide),
   c1_exhaustion_lazy.2.2.1
     (SysState.mk (Session.mk "a" [] ∅ ["a"] false 3 true none) [])
     { SysState.mk (Session.mk "a" [] ∅ ["a"] false 3 true none) [] with
        session := (search_and_enqueue_start (Session.mk "a" [] ∅ ["a"] false 3 true none)).1 }
     (SysStep.refill (SysState.mk (Session.mk "a" [] ∅ ["a"] false 3 true none) []))
     (by decide),
   by
    have h := c1_exhaustion_lazy.2.2.2 (Session.mk "a" [] ∅ ["a"] false 3 true none)
      (fun _ => true) rfl
    rw [h]
    decide⟩

/-- C2, exercised at a failing input: a fetch is launched while the query is
`A`; `handle_search` then switches the session to query `B`, clearing queue
and shown; the stale completion (carrying an item found for `A`) still
merges that item into the queue of query `B`, adds it to the shown set of
`B`, and resets the failure streak of `B` — nothing in
`search_and_enqueue_more` compares the current query with the one the fetch
was launched for. -/
theorem c2_stale_completion_merges :
    (search_and_enqueue_start (handle_search_state none "A")).2 = true ∧
    (handle_search_state
      (some (search_and_enqueue_start (handle_search_state none "A")).1) "B").query = "B" ∧
    (handle_search_state
      (some (search_and_enqueue_start (handle_search_state none "A")).1) "B").queue = [] ∧
    (complete_fetch
      (handle_search_state
        (some (search_and_enqueue_start (handle_search_state none "A")).1) "B")
      (.jsonData [some "http://a1.jpg"] [] [])).query = "B" ∧
    (complete_fetch
      (handle_search_state
        (some (search_and_enqueue_start (handle_search_state none "A")).1) "B")
      (.jsonData [some "http://a1.jpg"] [] [])).queue = ["http://a1.jpg"] ∧
    "http://a1.jpg" ∈ (complete_fetch
      (handle_search_state
        (some (search_and_enqueue_start (handle_search_state none "A")).1) "B")
      (.jsonData [some "http://a1.jpg"] [] [])).shown := by
  decide

/-- C4: after every fetch completion the failure streak is incremented by
exactly one when zero items were newly merged into the queue, and reset to
zero otherwise — the test is the merged count after dedup, not the size of
the fetched list. -/
theorem c4_failure_streak_update (s : Session) (new_imgs : List String) (bm : Option String) :
    (on_fetch_complete s new_imgs bm).fetch_attempts =
      if (search_merge s.queue new_imgs).2 = 0 then s.fetch_attempts + 1 else 0 :=
  rfl

/-- C7: on a duplicate-free fetched list (which the Fetcher always
delivers), the completion appends to the queue exactly the fetched items
whose key is not already in the queue, in arrival order, after the
untouched existing queue, and counts exactly them. -/
theorem c7_merge_preserves_order :
    (∀ (o : FetchOutcome) (seen : Finset String), (fetch_images_from_pinterest_api o seen).1.Nodup) ∧
    (∀ queue new_imgs : List String, new_imgs.Nodup →
      (search_merge queue new_imgs).1 =
        queue ++ new_imgs.filter (fun i => decide (i ∉ queue)) ∧
      (search_merge queue new_imgs).2 =
        (new_imgs.filter (fun i => decide (i ∉ queue))).length) := by
  refine ⟨fun o seen => (fetch_spec o seen).2.1, ?_⟩
  intro queue new_imgs hnd
  have h := merge_loop_filter new_imgs queue 0 hnd
  rw [search_merge, h]
  exact ⟨rfl, by simp⟩

/-- C7 witness: the merge at a concrete queue and fetched list. -/
theorem c7_merge_preserves_order_witness :
    (search_merge ["a", "b"] ["b", "c", "d"]).1 =
      ["a", "b"] ++ (["b", "c", "d"].filter (fun i => decide (i ∉ ["a", "b"]))) ∧
    (search_merge ["a", "b"] ["b", "c", "d"]).2 =
      (["b", "c", "d"].filter (fun i => decide (i ∉ ["a", "b"]))).length :=
  c7_merge_preserves_order.2 ["a", "b"] ["b", "c", "d"] (by decide)

/-- C3: the Fetcher never returns a key already in the seen set it was
given, every returned key lands in the updated seen set, and in every
reachable system state the keys across all delivered blocks of the current
query lifetime are pairwise distinct. -/
theorem c3_dedup_invariant :
    (∀ (o : FetchOutcome) (seen : Finset String) (x : String),
      x ∈ (fetch_images_from_pinterest_api o seen).1 → x ∉ seen) ∧
    (∀ (o : FetchOutcome) (seen : Finset String),
      (fetch_images_from_pinterest_api o seen).2.1 =
        seen ∪ (fetch_images_from_pinterest_api o seen).1.toFinset) ∧
    (∀ st : SysState, Reachable st → st.delivered.flatten.Nodup) := by
  refine ⟨fun o seen x hx => (fetch_spec o seen).1 x hx,
    fun o seen => (fetch_spec o seen).2.2.1, ?_⟩
  intro st hreach
  exact ((reachable_inv hreach).1).of_append_left

/-- C3 witness: the seen filter at a concrete fetch, and the pairwise
distinctness of the delivered log of a concrete reachable state. -/
theorem c3_dedup_invariant_witness :
    ("http://u" ∉ ({"x"} : Finset String)) ∧
    (SysState.mk (handle_search_state none "cats") []).delivered.flatten.Nodup :=
  ⟨c3_dedup_invariant.1 (.jsonData [some "http://u"] [] []) {"x"} "http://u" (by decide),
   c3_dedup_invariant.2.2 (SysState.mk (handle_search_state none "cats") [])
     (Reachable.init "cats")⟩

/-- C5: a `handle_search` message with a changed query text resets queue,
shown, cursor, failure streak and exhausted flag, installs the new query
and appends it to the history; the history receives the query text in
every case and no other operation of the system ever modifies it. -/
theorem c5_set_query_reset :
    (∀ (s : Session) (q : String), s.query ≠ q →
      handle_search_state (some s) q =
        { query := q, queue := [], shown := ∅, history := s.history ++ [q],
          is_fetching := s.is_fetching, fetch_attempts := 0, fetch_exhausted := false,
          next_bookmark := none }) ∧
    (∀ (s : Session) (q : String), (handle_search_state (some s) q).history = s.history ++ [q]) ∧
    (∀ q : String, (handle_search_state none q).history = [q]) ∧
    (∀ (s : Session) (new_imgs : List String) (bm : Option String),
      (on_fetch_complete s new_imgs bm).history = s.history) ∧
    (∀ s : Session, ((search_and_enqueue_start s).1).history = s.history) ∧
    (∀ (s : Session) (ok : String → Bool), ((send_block_run s ok).1).history = s.history) := by
  refine ⟨handle_search_diff, ?_, ?_, fun s new_imgs bm => rfl, ?_, ?_⟩
  · intro s q
    by_cases hq : s.query = q
    · rw [handle_search_same _ _ hq]
    · rw [handle_search_diff _ _ hq]
  · intro q
    rw [handle_search_none]
  · intro s
    by_cases hif : s.is_fetching <;> by_cases hmax : MAX_FETCH_ATTEMPTS ≤ s.fetch_attempts <;>
      simp [search_and_enqueue_start, hif, hmax]
  · intro s ok
    exact (send_block_run_fields s ok).2.2.2.2.1

/-- C5 witness: `setQuery("cats")` then `setQuery("dogs")` before any fetch:
all query-scoped fields are reset and the history holds both queries in
order. -/
theorem c5_set_query_reset_witness :
    handle_search_state (some (handle_search_state none "cats")) "dogs" =
      { query := "dogs", queue := [], shown := ∅, history := ["cats"] ++ ["dogs"],
        is_fetching := false, fetch_attempts := 0, fetch_exhausted := false,
        next_bookmark := none } :=
  c5_set_query_reset.1 (handle_search_state none "cats") "dogs" (by decide)

/-- C6: in every reachable state, a refill attempted while a fetch is in
flight or while the session is exhausted changes nothing and launches no
fetch, and the background-task trigger at the `send_block` call sites is
false as well; so a session never has two fetches in flight. -/
theorem c6_refill_noop :
    ∀ st : SysState, Reachable st →
      (st.session.is_fetching = true ∨ st.session.fetch_exhausted = true) →
      search_and_enqueue_start st.session = (st.session, false) ∧
      refill_trigger st.session = false := by
  intro st hreach hcase
  obtain ⟨_, _, h3, h4, _⟩ := reachable_inv hreach
  rcases hcase with hif | hex
  · constructor
    · simp [search_and_enqueue_start, hif]
    · simp [refill_trigger, hif]
  · have hif : st.session.is_fetching = false := h4 hex
    have hmax := h3 hex
    constructor
    · have heta : ({ st.session with fetch_exhausted := true } : Session) = st.session := by
        conv_lhs => rw [← hex]
      rw [search_and_enqueue_start, if_neg (by simp [hif]), if_pos hmax, heta]
    · simp [refill_trigger, hex]

/-- C6 witness: the no-op refill on the concrete session left in-flight by a
first refill. -/
theorem c6_refill_noop_witness :
    search_and_enqueue_start ((search_and_enqueue_start (handle_search_state none "q")).1) =
      ((search_and_enqueue_start (handle_search_state none "q")).1, false) ∧
    refill_trigger ((search_and_enqueue_start (handle_search_state none "q")).1) = false :=
  c6_refill_noop
    (SysState.mk ((search_and_enqueue_start (handle_search_state none "q")).1) [])
    (Reachable.step (Reachable.init "q")
      (SysStep.refill (SysState.mk (handle_search_state none "q") [])))
    (Or.inl (by decide))

/-- C8: a `send_block` on a non-empty queue pops exactly the first
`min(length, BLOCK_SIZE)` items FIFO and delivers them; with three queued
items the whole triple goes out at once and the queue is left empty. -/
theorem c8_partial_block_delivery :
    ∀ (s : Session) (ok : String → Bool), s.queue ≠ [] →
      pop_block s.queue [] = (s.queue.take BLOCK_SIZE, s.queue.drop BLOCK_SIZE) ∧
      (s.queue.take BLOCK_SIZE).length = min s.queue.length BLOCK_SIZE ∧
      delivered_items (send_block_run s ok).2 = some (s.queue.take BLOCK_SIZE) ∧
      (send_block_run s ok).1.queue = s.queue.drop BLOCK_SIZE ∧
      (s.queue.length = 3 →
        delivered_items (send_block_run s ok).2 = some s.queue ∧
        (send_block_run s ok).1.queue = []) := by
  intro s ok hne
  have hq : s.queue.isEmpty = false := by
    cases h : s.queue with
    | nil => exact absurd h hne
    | cons a l => rfl
  refine ⟨pop_block_take_drop _, ?_, ?_, ?_, ?_⟩
  · rw [List.length_take, Nat.min_comm]
  · simp [send_block_run, hq, pop_block_take_drop, delivered_items]
  · simp [send_block_run, hq, pop_block_take_drop]
  · intro h3
    have htake : s.queue.take BLOCK_SIZE = s.queue :=
      List.take_of_length_le (by rw [h3]; decide)
    have hdrop : s.queue.drop BLOCK_SIZE = [] :=
      List.drop_eq_nil_of_le (by rw [h3]; decide)
    constructor
    · simp [send_block_run, hq, pop_block_take_drop, delivered_items, htake]
    · simp [send_block_run, hq, pop_block_take_drop, hdrop]

/-- C8 witness: three queued items are all delivered and the queue is left
empty. -/
theorem c8_partial_block_delivery_witness :
    delivered_items (send_block_run
        (Session.mk "q" ["u1", "u2", "u3"] ∅ ["q"] false 0 false none)
        (fun _ => true)).2 = some ["u1", "u2", "u3"] ∧
    (send_block_run (Session.mk "q" ["u1", "u2", "u3"] ∅ ["q"] false 0 false none)
        (fun _ => true)).1.queue = [] :=
  (c8_partial_block_delivery (Session.mk "q" ["u1", "u2", "u3"] ∅ ["q"] false 0 false none)
    (fun _ => true) (by decide)).2.2.2.2 (by decide)

/-- C9: the send loop attempts every item of the block in order whatever
the per-item outcomes, a failing item gets the textual fallback attempt and
the loop continues; every key already in `shown` (every queued key is, in
every reachable state, having been added by the Fetcher at fetch time)
stays in `shown` across the loop; and no later fetch ever returns a key in
`shown` again. -/
theorem c9_delivery_failure_isolated :
    (∀ (ok : String → Bool) (imgs : List String) (shown : Finset String) (cnt : Nat),
      (send_loop ok imgs shown cnt).2.2.map delivery_img = imgs ∧
      (∀ img ∈ imgs, ok img = false →
        Delivery.fallbackText img ∈ (send_loop ok imgs shown cnt).2.2) ∧
      (∀ x ∈ shown, x ∈ (send_loop ok imgs shown cnt).1)) ∧
    (∀ st : SysState, Reachable st → ∀ x ∈ st.session.queue, x ∈ st.session.shown) ∧
    (∀ (o : FetchOutcome) (seen : Finset String) (x : String), x ∈ seen →
      x ∉ (fetch_images_from_pinterest_api o seen).1) := by
  refine ⟨?_, ?_, ?_⟩
  · intro ok imgs shown cnt
    have h := send_loop_spec ok imgs shown cnt
    exact ⟨h.1, h.2.1, h.2.2.1⟩
  · intro st hreach x hx
    exact (reachable_inv hreach).2.1 x (List.mem_append.mpr (Or.inr hx))
  · intro o seen x hseen hmem
    exact (fetch_spec o seen).1 x hmem hseen

/-- C9 witness: one failing item is attempted via the fallback, remains in
the shown set, and is never fetched again. -/
theorem c9_delivery_failure_isolated_witness :
    (send_loop (fun _ => false) ["u"] {"u"} 0).2.2.map delivery_img = ["u"] ∧
    Delivery.fallbackText "u" ∈ (send_loop (fun _ => false) ["u"] {"u"} 0).2.2 ∧
    "u" ∈ (send_loop (fun _ => false) ["u"] {"u"} 0).1 ∧
    "u" ∉ (fetch_images_from_pinterest_api .httpFail {"u"}).1 :=
  ⟨(c9_delivery_failure_isolated.1 (fun _ => false) ["u"] {"u"} 0).1,
   (c9_delivery_failure_isolated.1 (fun _ => false) ["u"] {"u"} 0).2.1 "u" (by decide) rfl,
   (c9_delivery_failure_isolated.1 (fun _ => false) ["u"] {"u"} 0).2.2 "u" (by decide),
   c9_delivery_failure_isolated.2.2 .httpFail {"u"} "u" (by decide)⟩

/-- C10: every return path of the Fetcher reports an absent next cursor,
and in every reachable state the session cursor is absent — pagination
never advances past the first results page. -/
theorem c10_cursor_always_absent :
    (∀ (o : FetchOutcome) (seen : Finset String),
      (fetch_images_from_pinterest_api o seen).2.2 = none) ∧
    (∀ st : SysState, Reachable st → st.session.next_bookmark = none) :=
  ⟨fun o seen => (fetch_spec o seen).2.2.2,
   fun _ hreach => (reachable_inv hreach).2.2.2.2⟩

/-- C10 witness: the cursor is still absent right after a completed fetch
that did return items. -/
theorem c10_cursor_always_absent_witness :
    (complete_fetch ((search_and_enqueue_start (handle_search_state none "q")).1)
      (.jsonData [some "http://u"] [] [])).next_bookmark = none :=
  c10_cursor_always_absent.2
    (SysState.mk (complete_fetch ((search_and_enqueue_start (handle_search_state none "q")).1)
      (.jsonData [some "http://u"] [] [])) [])
    (Reachable.step
      (Reachable.step (Reachable.init "q")
        (SysStep.refill (SysState.mk (handle_search_state none "q") [])))
      (SysStep.complete (.jsonData [some "http://u"] [] [])
        (SysState.mk ((search_and_enqueue_start (handle_search_state none "q")).1) [])
        (by decide)))
